import Mathlib

/-!
Verification of the tissue partial-volume (PV) composition algorithm of the
hcp-asl repository (`hcpasl/extract_fs_pvs.py`).

The embedding models the per-voxel arithmetic of `stack_images` and the
label-classification logic of `extract_fs_pvs` over the rationals.  All numpy
operations in `stack_images` are voxelwise (each output voxel depends only on
the input values at that voxel), so the vectorized array code is embedded as
a per-voxel function mapped over the voxel index range.  The `assert`
statements abort the whole call when any voxel violates them; this is modelled
by `Option` (a `none` result is an aborted call).  Python floats are modelled
as exact rationals.
-/

namespace HCPASL

/-- A per-voxel triple of partial volumes, in the fixed channel order used by
the code: channel 0 = GM, channel 1 = WM, channel 2 = CSF (for the cortex
estimate, channel 2 is the non-brain fraction). -/
structure PV where
  gm : ℚ
  wm : ℚ
  csf : ℚ
deriving DecidableEq, Repr

/-- Sum of the three channels of a voxel (numpy `out.sum(1)` at one voxel). -/
def pvSum (t : PV) : ℚ := t.gm + t.wm + t.csf

/-- The assertion block of `stack_images` (lines 239-241 and 257-259) at one
voxel: `np.abs(out.sum(1) - 1) < 1e-6`, `out > -1e-6`, `out < 1 + 1e-6`. -/
def pvCheck (t : PV) : Bool :=
  decide (|pvSum t - 1| < 1 / 1000000) &&
  decide (-(1 / 1000000) < t.gm ∧ -(1 / 1000000) < t.wm ∧ -(1 / 1000000) < t.csf) &&
  decide (t.gm < 1 + 1 / 1000000 ∧ t.wm < 1 + 1 / 1000000 ∧ t.csf < 1 + 1 / 1000000)

/-- One iteration of the WM-structure loop (lines 214-216) at one voxel.  The
state is `(out.wm, working csf)`: `out[:, 1] = np.minimum(1, out[:, 1] + s)`,
then wherever `s > 0` the working csf is overwritten with `max(0, 1 - s)`. -/
def wmStep (st : ℚ × ℚ) (s : ℚ) : ℚ × ℚ :=
  (min 1 (st.1 + s), if 0 < s then max 0 (1 - s) else st.2)

/-- The whole WM-structure loop at one voxel, starting from `out.wm = 0` and
the working csf `volCSF` (the popped `vol_CSF` value at this voxel). -/
def wmPass (volCSF : ℚ) (wmVals : List ℚ) : ℚ × ℚ :=
  wmVals.foldl wmStep (0, volCSF)

/-- State after the WM-structure loop and line 217
(`out[:, 2] = np.maximum(0, 1 - out[:, 1])`): the voxel triple together with
the working csf. `out.gm` is still 0 from the `np.zeros_like` initialisation. -/
def wmStage (volCSF : ℚ) (wmVals : List ℚ) : PV × ℚ :=
  (⟨0, (wmPass volCSF wmVals).1, max 0 (1 - (wmPass volCSF wmVals).1)⟩,
   (wmPass volCSF wmVals).2)

/-- The cortex overwrite (lines 221-222) at one voxel:
`mask = np.logical_or(ctx[:, 0], ctx[:, 1])` (numpy truthiness: nonzero), and
`out[mask, :] = ctx[mask, :]`. -/
def cortexStep (ctx out : PV) : PV :=
  if ctx.gm ≠ 0 ∨ ctx.wm ≠ 0 then ctx else out

/-- The volumetric CSF backfill (lines 229-235) at one voxel.
`ctxmask = ctx[:, 0] > 0.01`; `to_update = csf > out[:, 2] AND NOT ctxmask`;
on updated voxels `tmpwm` saves the old WM, then the channels are assigned in
code order: CSF first, then GM from the new CSF, then WM from `tmpwm` and the
new CSF and GM. -/
def backfillStep (ctx : PV) (csf : ℚ) (out : PV) : PV :=
  if out.csf < csf ∧ ¬(1 / 100 < ctx.gm) then
    ⟨min out.gm (1 - csf),
     min out.wm (1 - (csf + min out.gm (1 - csf))),
     csf⟩
  else out

/-- The voxel state checked by the mid-pipeline assertions (lines 239-241):
WM-structure pass, then cortex overwrite, then CSF backfill. -/
def midPV (volCSF : ℚ) (ctx : PV) (wmVals : List ℚ) : PV :=
  backfillStep ctx (wmStage volCSF wmVals).2 (cortexStep ctx (wmStage volCSF wmVals).1)

/-- One iteration of the GM-structure loop (lines 248-252) at one voxel.  Only
voxels with `s > 0` are touched; the three masked assignments are sequential,
so the CSF update sees the new GM and the WM update sees the new GM and CSF. -/
def gmStep (out : PV) (s : ℚ) : PV :=
  if 0 < s then
    ⟨min 1 (out.gm + s),
     max (1 - (min 1 (out.gm + s) + min out.csf (1 - min 1 (out.gm + s)))) 0,
     min out.csf (1 - min 1 (out.gm + s))⟩
  else out

/-- The whole GM-structure loop (`for s in images.values()`) at one voxel. -/
def gmPass (out : PV) (gmVals : List ℚ) : PV :=
  gmVals.foldl gmStep out

/-- The negative clipping of line 255 (`out[out < 0] = 0`) at one voxel. -/
def clipPV (t : PV) : PV :=
  ⟨max 0 t.gm, max 0 t.wm, max 0 t.csf⟩

/-- The final rescaling (lines 255-260) at one voxel: clip negatives, then
divide by the clipped voxel sum. -/
def normalizePV (t : PV) : PV :=
  ⟨(clipPV t).gm / pvSum (clipPV t),
   (clipPV t).wm / pvSum (clipPV t),
   (clipPV t).csf / pvSum (clipPV t)⟩

/-- The full per-voxel pipeline of `stack_images`: WM structures, cortex
overwrite, CSF backfill, mid assertions, GM structures, clip, final assertions
(on the clipped values, which are what lines 256-259 see), then the division.
`none` models an `AssertionError` aborting the call at this voxel. -/
def stackVoxel (volCSF : ℚ) (ctx : PV) (wmVals gmVals : List ℚ) : Option PV :=
  if pvCheck (midPV volCSF ctx wmVals) then
    if pvCheck (clipPV (gmPass (midPV volCSF ctx wmVals) gmVals)) then
      some (normalizePV (gmPass (midPV volCSF ctx wmVals) gmVals))
    else none
  else none

/-- A flattened image: one rational per voxel. -/
abbrev Img := List ℚ

/-- The `images` argument of `stack_images`: an insertion-ordered mapping from
structure/tissue name to flattened image, as a Python `dict` is. -/
abbrev ImgDict := List (String × Img)

/-- Python `dict.pop(k)`: return the value at `k` and the dictionary without
that entry (`none` models the `KeyError` when `k` is absent). -/
def dictPop (d : ImgDict) (k : String) : Option (Img × ImgDict) :=
  match d with
  | [] => none
  | (k2, v) :: rest =>
    if k2 = k then some (v, rest)
    else
      match dictPop rest k with
      | none => none
      | some (v2, rest2) => some (v2, (k2, v) :: rest2)

/-- Map a fallible per-index computation over an index list, failing if any
index fails (the shape of a vectorized computation with assertions). -/
def optMap (f : Nat → Option PV) : List Nat → Option (List PV)
  | [] => some []
  | i :: is =>
    match f i, optMap f is with
    | some t, some ts => some (t :: ts)
    | _, _ => none

/-- The vectorized body of `stack_images` after all the `pop` calls: voxel `i`
reads `vol_CSF`, the three cortex channels, the three WM-structure masks
(`BrStem`, `L_CerWM`, `R_CerWM`, in the order of line 212) and the remaining
GM-structure masks (in dictionary insertion order) at index `i`. -/
def stackCore (csf ctxgm ctxwm ctxnon bs lc rc : Img) (gms : List Img) :
    Option (List PV) :=
  optMap
    (fun i =>
      stackVoxel (csf.getD i 0) ⟨ctxgm.getD i 0, ctxwm.getD i 0, ctxnon.getD i 0⟩
        [bs.getD i 0, lc.getD i 0, rc.getD i 0] (gms.map (fun g => g.getD i 0)))
    (List.range csf.length)

/-- The function `stack_images` (lines 164-262).  It destructively pops nine
entries out of the caller's dictionary (lines 197-212), runs the voxelwise
composition, and returns the PV array.  The post-call state of the caller's
dictionary is returned alongside the result to model the in-place mutation. -/
def stack_images (images : ImgDict) : Option (List PV × ImgDict) :=
  (dictPop images "vol_CSF").bind fun csf =>
  (dictPop csf.2 "vol_WM").bind fun vw =>
  (dictPop vw.2 "vol_GM").bind fun vg =>
  (dictPop vg.2 "cortex_GM").bind fun cg =>
  (dictPop cg.2 "cortex_WM").bind fun cw =>
  (dictPop cw.2 "cortex_nonbrain").bind fun cn =>
  (dictPop cn.2 "BrStem").bind fun bs =>
  (dictPop bs.2 "L_CerWM").bind fun lc =>
  (dictPop lc.2 "R_CerWM").bind fun rc =>
  (stackCore csf.1 cg.1 cw.1 cn.1 bs.1 lc.1 rc.1 (rc.2.map Prod.snd)).map
    fun res => (res, rc.2)

/-- The exact-match lookup table `SUBCORT_LUT` (lines 14-56): specific aseg
codes mapped to a generic tissue (WM / GM / CSF) or a named structure. -/
def SUBCORT_LUT (code : ℤ) : Option String :=
  if code = 2 then some "WM"
  else if code = 3 then some "GM"
  else if code = 4 then some "CSF"
  else if code = 5 then some "CSF"
  else if code = 26 then some "L_Accu"
  else if code = 18 then some "L_Amyg"
  else if code = 11 then some "L_Caud"
  else if code = 17 then some "L_Hipp"
  else if code = 13 then some "L_Pall"
  else if code = 12 then some "L_Puta"
  else if code = 9 then some "L_Thal"
  else if code = 10 then some "L_Thal"
  else if code = 24 then some "CSF"
  else if code = 0 then some "CSF"
  else if code = 14 then some "CSF"
  else if code = 15 then some "CSF"
  else if code = 77 then some "WM"
  else if code = 78 then some "WM"
  else if code = 79 then some "WM"
  else if code = 41 then some "WM"
  else if code = 42 then some "GM"
  else if code = 43 then some "CSF"
  else if code = 44 then some "CSF"
  else if code = 58 then some "R_Accu"
  else if code = 54 then some "R_Amyg"
  else if code = 50 then some "R_Caud"
  else if code = 53 then some "R_Hipp"
  else if code = 52 then some "R_Pall"
  else if code = 51 then some "R_Puta"
  else if code = 48 then some "R_Thal"
  else if code = 49 then some "R_Thal"
  else if code = 7 then some "L_CerWM"
  else if code = 8 then some "L_CerGM"
  else if code = 46 then some "R_CerWM"
  else if code = 47 then some "R_CerGM"
  else if code = 16 then some "BrStem"
  else none

/-- The codes left unlabelled without a report (line 60, cerebellum exterior). -/
def IGNORE : List ℤ := [6, 45]

/-- The range-based fallback `CTX_LUT` (lines 64-72) for cortical labels. -/
def CTX_LUT (val : ℤ) : Option String :=
  if 251 ≤ val ∧ val < 256 then some "WM"
  else if 1000 ≤ val ∧ val < 3000 then some "GM"
  else if 3000 ≤ val ∧ val < 5000 then some "WM"
  else none

/-- The classification performed per label in `extract_fs_pvs` (lines
113-115): `tissue = SUBCORT_LUT.get(label)`, and if that is falsy (all table
values are nonempty strings, so falsy means absent), `tissue = CTX_LUT(label)`. -/
def classify (code : ℤ) : Option String :=
  match SUBCORT_LUT code with
  | some t => some t
  | none => CTX_LUT code

/-- Whether `extract_fs_pvs` prints the non-fatal "Did not assign tissue"
report for a code (lines 127-128): the code got no tissue and is not ignored. -/
def reported (code : ℤ) : Bool :=
  decide (classify code = none) && !(decide (code ∈ IGNORE))

/-- The volumetric PV triple that `extract_fs_pvs` derives for a voxel whose
aseg label is `code` (lines 110-138), under an identity registration: the
label loop sets channel 1 (WM) or channel 0 (GM) to 1 on the label's mask and
leaves CSF-mapped and named-structure labels at 0 (since each voxel carries
exactly one label, the voxel's own label determines its channels); then
channel 2 is `max(0, 1 - (GM + WM))`, zeroed when below `1e-2`, and the triple
is divided by its sum. -/
def volPVvoxel (code : ℤ) : PV :=
  let gm : ℚ := if classify code = some "GM" then 1 else 0
  let wm : ℚ := if classify code = some "WM" then 1 else 0
  let csf0 : ℚ := max 0 (1 - (gm + wm))
  let csf1 : ℚ := if csf0 < 1 / 100 then 0 else csf0
  ⟨gm / (gm + wm + csf1), wm / (gm + wm + csf1), csf1 / (gm + wm + csf1)⟩

/-- The fractional mask that `extract_fs_pvs` stores under a structure name
for a voxel with label `code` (line 126, identity resampling): 1 on the
structure's voxels, 0 elsewhere. -/
def structMaskVoxel (name : String) (code : ℤ) : ℚ :=
  if classify code = some name then 1 else 0

/-- The label volume of the end-to-end scenario: a 2x2x1 grid whose voxels
carry the aseg codes 2 (generic WM), 3 (generic GM), 0 (CSF-mapped) and 26
(left accumbens). -/
def c2Labels : List ℤ := [2, 3, 0, 26]

/-- The `images` dictionary that `extract_fs_pvs` hands to `stack_images` in
the end-to-end scenario: the accumbens fractional mask `[0,0,0,1]` produced by
the extraction loop, the uniform cortex estimate `(0,0,1)` (no cortical
signal), and the volumetric entries derived from the labels.  `stack_images`
unconditionally pops `BrStem`, `L_CerWM` and `R_CerWM`, so the scenario's
absence of those structures is modelled as all-zero masks. -/
def c2Images : ImgDict :=
  [("L_Accu", c2Labels.map (structMaskVoxel "L_Accu")),
   ("BrStem", [0, 0, 0, 0]),
   ("L_CerWM", [0, 0, 0, 0]),
   ("R_CerWM", [0, 0, 0, 0]),
   ("cortex_GM", [0, 0, 0, 0]),
   ("cortex_WM", [0, 0, 0, 0]),
   ("cortex_nonbrain", [1, 1, 1, 1]),
   ("vol_GM", c2Labels.map (fun l => (volPVvoxel l).gm)),
   ("vol_WM", c2Labels.map (fun l => (volPVvoxel l).wm)),
   ("vol_CSF", c2Labels.map (fun l => (volPVvoxel l).csf))]

section Lemmas

/-- Unfolding of the assertion block into its three comparisons. -/
theorem pvCheck_iff (t : PV) : pvCheck t = true ↔
    |pvSum t - 1| < 1 / 1000000 ∧
    (-(1 / 1000000) < t.gm ∧ -(1 / 1000000) < t.wm ∧ -(1 / 1000000) < t.csf) ∧
    (t.gm < 1 + 1 / 1000000 ∧ t.wm < 1 + 1 / 1000000 ∧ t.csf < 1 + 1 / 1000000) := by
  simp [pvCheck]
  tauto

/-- Every member of a successful `optMap` run comes from some index. -/
theorem optMap_mem {f : Nat → Option PV} :
    ∀ {l : List Nat} {ys : List PV}, optMap f l = some ys →
      ∀ t ∈ ys, ∃ i ∈ l, f i = some t := by
  intro l
  induction l with
  | nil =>
    intro ys h t ht
    simp only [optMap, Option.some.injEq] at h
    subst h
    simp at ht
  | cons i is ih =>
    intro ys h t ht
    unfold optMap at h
    cases hfi : f i with
    | none => rw [hfi] at h; exact absurd h (by simp)
    | some u =>
      rw [hfi] at h
      cases hrest : optMap f is with
      | none => rw [hrest] at h; exact absurd h (by simp)
      | some us =>
        rw [hrest] at h
        simp only [Option.some.injEq] at h
        subst h
        rcases List.mem_cons.mp ht with h1 | h2
        · exact ⟨i, by simp, h1 ▸ hfi⟩
        · obtain ⟨j, hj, hfj⟩ := ih hrest t h2
          exact ⟨j, by simp [hj], hfj⟩

/-- A single failing index makes the whole `optMap` run fail. -/
theorem optMap_none {f : Nat → Option PV} {i : Nat} :
    ∀ {l : List Nat}, i ∈ l → f i = none → optMap f l = none := by
  intro l
  induction l with
  | nil => intro h; simp at h
  | cons j js ih =>
    intro hmem hnone
    unfold optMap
    rcases List.mem_cons.mp hmem with h1 | h2
    · subst h1
      rw [hnone]
    · rw [ih h2 hnone]
      cases f j <;> rfl

/-- Inversion of a completing per-voxel run: the result is the normalized
post-GM-pass state and the final assertion block passed on its clipping. -/
theorem stackVoxel_eq_some {v : ℚ} {ctx : PV} {w g : List ℚ} {t : PV}
    (h : stackVoxel v ctx w g = some t) :
    t = normalizePV (gmPass (midPV v ctx w) g) ∧
    pvCheck (clipPV (gmPass (midPV v ctx w) g)) = true := by
  unfold stackVoxel at h
  by_cases h1 : pvCheck (midPV v ctx w) = true
  · rw [if_pos h1] at h
    by_cases h2 : pvCheck (clipPV (gmPass (midPV v ctx w) g)) = true
    · rw [if_pos h2] at h
      exact ⟨(Option.some.injEq _ _ ▸ h).symm, h2⟩
    · rw [if_neg h2] at h
      exact absurd h (by simp)
  · rw [if_neg h1] at h
    exact absurd h (by simp)

/-- When the final assertion block passes on the clipped voxel, the divided
voxel has channels in `[0, 1]` summing to exactly 1. -/
theorem normalizePV_bounds {p : PV} (h : pvCheck (clipPV p) = true) :
    pvSum (normalizePV p) = 1 ∧
    0 ≤ (normalizePV p).gm ∧ (normalizePV p).gm ≤ 1 ∧
    0 ≤ (normalizePV p).wm ∧ (normalizePV p).wm ≤ 1 ∧
    0 ≤ (normalizePV p).csf ∧ (normalizePV p).csf ≤ 1 := by
  have h1 := (abs_lt.mp ((pvCheck_iff _).mp h).1).1
  have hga : (0:ℚ) ≤ (clipPV p).gm := le_max_left 0 _
  have hwa : (0:ℚ) ≤ (clipPV p).wm := le_max_left 0 _
  have hca : (0:ℚ) ≤ (clipPV p).csf := le_max_left 0 _
  have hspos : 0 < pvSum (clipPV p) := by
    unfold pvSum at h1 ⊢
    linarith
  have hsum : pvSum (normalizePV p) = 1 := by
    show (clipPV p).gm / pvSum (clipPV p) + (clipPV p).wm / pvSum (clipPV p) +
        (clipPV p).csf / pvSum (clipPV p) = 1
    rw [div_add_div_same, div_add_div_same]
    exact div_self hspos.ne'
  have hb : ∀ x : ℚ, 0 ≤ x → x + (pvSum (clipPV p) - x) = pvSum (clipPV p) := by
    intro x _; ring
  refine ⟨hsum, ?_, ?_, ?_, ?_, ?_, ?_⟩
  · exact div_nonneg hga hspos.le
  · exact (div_le_one hspos).mpr (by unfold pvSum at hspos ⊢; linarith)
  · exact div_nonneg hwa hspos.le
  · exact (div_le_one hspos).mpr (by unfold pvSum at hspos ⊢; linarith)
  · exact div_nonneg hca hspos.le
  · exact (div_le_one hspos).mpr (by unfold pvSum at hspos ⊢; linarith)

/-- A WM-structure pass over all-zero masks leaves the state unchanged. -/
theorem wmPass_zeros (v : ℚ) : wmPass v [0, 0, 0] = (0, v) := by
  norm_num [wmPass, wmStep, List.foldl]

/-- The WM stage over all-zero masks yields the all-CSF baseline. -/
theorem wmStage_zeros (v : ℚ) : wmStage v [0, 0, 0] = (⟨0, 0, 1⟩, v) := by
  simp only [wmStage, wmPass_zeros]
  norm_num

/-- With no WM-structure signal, no cortex signal and `volCSF ≤ 1`, the state
at the mid assertions is the all-CSF baseline. -/
theorem midPV_baseline (v : ℚ) (hv : v ≤ 1) :
    midPV v ⟨0, 0, 1⟩ [0, 0, 0] = ⟨0, 0, 1⟩ := by
  simp only [midPV, wmStage_zeros]
  norm_num [cortexStep, backfillStep]
  intro h
  linarith

/-- A GM-structure pass over all-zero masks leaves the voxel unchanged. -/
theorem gmPass_zero (out : PV) : ∀ l : List ℚ, (∀ s ∈ l, s = 0) → gmPass out l = out := by
  intro l
  induction l generalizing out with
  | nil => intro _; rfl
  | cons a t ih =>
    intro h
    have ha : a = 0 := h a (by simp)
    have hstep : gmStep out a = out := by
      subst ha
      norm_num [gmStep]
    unfold gmPass at ih ⊢
    rw [List.foldl_cons, hstep]
    exact ih out fun s hs => h s (by simp [hs])

/-- The assertion block passes at the all-CSF baseline. -/
theorem pvCheck_base : pvCheck ⟨0, 0, 1⟩ = true := by
  norm_num [pvCheck, pvSum]

/-- Clipping fixes the all-CSF baseline. -/
theorem clipPV_base : clipPV ⟨0, 0, 1⟩ = ⟨0, 0, 1⟩ := by
  norm_num [clipPV]

/-- Normalization fixes the all-CSF baseline. -/
theorem normalizePV_base : normalizePV ⟨0, 0, 1⟩ = ⟨0, 0, 1⟩ := by
  norm_num [normalizePV, clipPV, pvSum]

/-- A voxel with no WM-structure signal, no cortex signal, `volCSF ≤ 1` and
all-zero GM-structure masks completes as pure CSF. -/
theorem stackVoxel_base (v : ℚ) (hv : v ≤ 1) (g : List ℚ) (hg : ∀ s ∈ g, s = 0) :
    stackVoxel v ⟨0, 0, 1⟩ [0, 0, 0] g = some ⟨0, 0, 1⟩ := by
  unfold stackVoxel
  rw [midPV_baseline v hv, gmPass_zero _ g hg, clipPV_base, pvCheck_base,
    normalizePV_base]
  rfl

end Lemmas

/-- C1: for every input on which `stack_images` returns without aborting,
every voxel of the returned map has GM+WM+CSF within 1e-6 of 1 and every
channel within 1e-6 of the interval [0, 1].  (The proof in fact shows the
returned sums are exactly 1 and the channels exactly in [0, 1], because the
final assertion passed and the division then renormalizes exactly.) -/
theorem stack_images_unit_interval (images : ImgDict) (res : List PV) (rest : ImgDict)
    (h : stack_images images = some (res, rest)) :
    ∀ t ∈ res, |pvSum t - 1| ≤ 1 / 1000000 ∧
      -(1 / 1000000) ≤ t.gm ∧ t.gm ≤ 1 + 1 / 1000000 ∧
      -(1 / 1000000) ≤ t.wm ∧ t.wm ≤ 1 + 1 / 1000000 ∧
      -(1 / 1000000) ≤ t.csf ∧ t.csf ≤ 1 + 1 / 1000000 := by
  intro t ht
  simp only [stack_images, Option.bind_eq_some, Option.map_eq_some'] at h
  obtain ⟨p1, h1, p2, h2, p3, h3, p4, h4, p5, h5, p6, h6, p7, h7, p8, h8, p9, h9,
    res2, hcore, heq⟩ := h
  injection heq with hres hrest
  subst hres
  unfold stackCore at hcore
  obtain ⟨i, hi, hvox⟩ := optMap_mem hcore t ht
  obtain ⟨hteq, hchk⟩ := stackVoxel_eq_some hvox
  subst hteq
  obtain ⟨hsum, hg0, hg1, hw0, hw1, hc0, hc1⟩ := normalizePV_bounds hchk
  rw [hsum]
  refine ⟨by norm_num, by linarith, by linarith, by linarith, by linarith,
    by linarith, by linarith⟩

/-- First component of the WM-structure fold: the WM channel accumulates by
`min 1 (wm + s)` independently of the working csf. -/
theorem wmPass_foldl_fst : ∀ (l : List ℚ) (w c : ℚ),
    (l.foldl wmStep (w, c)).1 = l.foldl (fun a s => min 1 (a + s)) w := by
  intro l
  induction l with
  | nil => intro w c; rfl
  | cons a t ih =>
    intro w c
    rw [List.foldl_cons, List.foldl_cons]
    exact ih _ _

/-- The working csf survives a WM-structure fold with no positive mask. -/
theorem wmPass_snd_nopos : ∀ (l : List ℚ) (w c : ℚ),
    (∀ s ∈ l, ¬ 0 < s) → (l.foldl wmStep (w, c)).2 = c := by
  intro l
  induction l with
  | nil => intro w c _; rfl
  | cons a t ih =>
    intro w c h
    rw [List.foldl_cons]
    have hstep : wmStep (w, c) a = (min 1 (w + a), c) := by
      simp [wmStep, h a (by simp)]
    rw [hstep]
    exact ih _ _ fun s hs => h s (by simp [hs])

/-- The working csf after the WM-structure fold is the overwrite left by the
last positive mask in list order. -/
theorem wmPass_snd_lastpos : ∀ (l : List ℚ) (w c s0 : ℚ),
    (l.filter fun s => decide (0 < s)).getLast? = some s0 →
    (l.foldl wmStep (w, c)).2 = max 0 (1 - s0) := by
  intro l
  induction l with
  | nil => intro w c s0 h; simp at h
  | cons a t ih =>
    intro w c s0 h
    rw [List.foldl_cons]
    by_cases ha : 0 < a
    · rw [List.filter_cons_of_pos (by simpa using ha)] at h
      have hstep : wmStep (w, c) a = (min 1 (w + a), max 0 (1 - a)) := by
        simp [wmStep, ha]
      rw [hstep]
      cases hft : t.filter (fun s => decide (0 < s)) with
      | nil =>
        rw [hft] at h
        simp only [List.getLast?_singleton, Option.some.injEq] at h
        subst h
        refine wmPass_snd_nopos t _ _ fun s hs hpos => ?_
        have hmem : s ∈ t.filter (fun s => decide (0 < s)) :=
          List.mem_filter.mpr ⟨hs, by simpa using hpos⟩
        rw [hft] at hmem
        simp at hmem
      | cons b bs =>
        rw [hft, List.getLast?_cons_cons] at h
        exact ih _ _ _ (by rw [hft]; exact h)
    · rw [List.filter_cons_of_neg (by simpa using ha)] at h
      have hstep : wmStep (w, c) a = (min 1 (w + a), c) := by
        simp [wmStep, ha]
      rw [hstep]
      exact ih _ _ _ h

/-- A one-voxel input dictionary on which `stack_images` completes. -/
def c1Images : ImgDict :=
  [("vol_CSF", [1]), ("vol_WM", [0]), ("vol_GM", [0]),
   ("cortex_GM", [0]), ("cortex_WM", [0]), ("cortex_nonbrain", [1]),
   ("BrStem", [0]), ("L_CerWM", [0]), ("R_CerWM", [0])]

/-- Evaluation of `stack_images` on the one-voxel dictionary. -/
theorem stack_images_c1Images : stack_images c1Images = some ([⟨0, 0, 1⟩], []) := by
  have h0 : stackVoxel 1 ⟨0, 0, 1⟩ [0, 0, 0] [] = some ⟨0, 0, 1⟩ :=
    stackVoxel_base 1 le_rfl [] (by simp)
  have hcore : stackCore [1] [0] [0] [1] [0] [0] [0] [] = some [⟨0, 0, 1⟩] := by
    simp [stackCore, optMap, List.range_succ, h0]
  simp [stack_images, c1Images, dictPop, hcore]

/-- Witness for C1 at a concrete completing call. -/
theorem stack_images_unit_interval_witness :
    stack_images c1Images = some ([⟨0, 0, 1⟩], []) ∧
    (|pvSum ⟨0, 0, 1⟩ - 1| ≤ 1 / 1000000 ∧
      -(1 / 1000000) ≤ (PV.mk 0 0 1).gm ∧ (PV.mk 0 0 1).gm ≤ 1 + 1 / 1000000 ∧
      -(1 / 1000000) ≤ (PV.mk 0 0 1).wm ∧ (PV.mk 0 0 1).wm ≤ 1 + 1 / 1000000 ∧
      -(1 / 1000000) ≤ (PV.mk 0 0 1).csf ∧ (PV.mk 0 0 1).csf ≤ 1 + 1 / 1000000) :=
  ⟨stack_images_c1Images,
   stack_images_unit_interval c1Images [⟨0, 0, 1⟩] [] stack_images_c1Images
     ⟨0, 0, 1⟩ (by simp)⟩

/-- C3: a voxel whose cortex estimate is `(0.6, 0.3, 0.1)` and which is
overlapped by no GM-like structure composes to exactly `(0.6, 0.3, 0.1)`,
regardless of the WM-structure masks and the `vol_CSF` value at that voxel:
the cortex overwrite fires (ctxGM is nonzero), the CSF backfill is blocked by
`ctxGM > 0.01`, the GM pass does not touch the voxel, and the final division
is by an exact unit sum. -/
theorem cortex_voxel_exact (volCSF : ℚ) (wmVals gmVals : List ℚ)
    (hg : ∀ s ∈ gmVals, s = 0) :
    stackVoxel volCSF ⟨3/5, 3/10, 1/10⟩ wmVals gmVals = some ⟨3/5, 3/10, 1/10⟩ := by
  have hctx : cortexStep ⟨3/5, 3/10, 1/10⟩ (wmStage volCSF wmVals).1 =
      ⟨3/5, 3/10, 1/10⟩ := by
    norm_num [cortexStep]
  have hmid : midPV volCSF ⟨3/5, 3/10, 1/10⟩ wmVals = ⟨3/5, 3/10, 1/10⟩ := by
    unfold midPV
    rw [hctx]
    norm_num [backfillStep]
  unfold stackVoxel
  rw [hmid, gmPass_zero _ gmVals hg]
  norm_num [pvCheck, pvSum, clipPV, normalizePV]

/-- Witness for C3 at a concrete voxel. -/
theorem cortex_voxel_exact_witness :
    stackVoxel 0 ⟨3/5, 3/10, 1/10⟩ [] [] = some ⟨3/5, 3/10, 1/10⟩ :=
  cortex_voxel_exact 0 [] [] (by simp)

/-- C4: the volumetric CSF backfill updates exactly the voxels where the
working csf exceeds `out.CSF` and `ctxGM ≤ 0.01` (the code's
`NOT (ctxGM > 0.01)`), setting CSF to the working csf, GM to
`min(GM, 1 - newCSF)`, and WM to `min(WM before the step, 1 - (newCSF + newGM))`;
every other voxel is left unchanged. -/
theorem backfillStep_exact (ctx : PV) (csf : ℚ) (out : PV) :
    (out.csf < csf ∧ ctx.gm ≤ 1/100 →
      backfillStep ctx csf out =
        ⟨min out.gm (1 - csf),
         min out.wm (1 - (csf + min out.gm (1 - csf))),
         csf⟩) ∧
    (¬(out.csf < csf ∧ ctx.gm ≤ 1/100) → backfillStep ctx csf out = out) := by
  constructor
  · intro h
    simp only [backfillStep]
    rw [if_pos ⟨h.1, not_lt.mpr h.2⟩]
  · intro h
    simp only [backfillStep]
    rw [if_neg fun hc => h ⟨hc.1, not_lt.mp hc.2⟩]

/-- Witness for C4 at a concrete updated voxel and a concrete untouched one. -/
theorem backfillStep_exact_witness :
    backfillStep ⟨0, 0, 0⟩ (1/2) ⟨1, 0, 0⟩ =
      ⟨min 1 (1 - 1/2), min 0 (1 - (1/2 + min 1 (1 - 1/2))), 1/2⟩ ∧
    backfillStep ⟨1, 0, 0⟩ (1/2) ⟨1, 0, 0⟩ = ⟨1, 0, 0⟩ :=
  ⟨(backfillStep_exact ⟨0, 0, 0⟩ (1/2) ⟨1, 0, 0⟩).1 (by norm_num),
   (backfillStep_exact ⟨1, 0, 0⟩ (1/2) ⟨1, 0, 0⟩).2 (by norm_num)⟩

/-- C5: after the WM-structure pass and before the cortex overwrite, the WM
channel is the fold of `min 1 (wm + s)` over the masks in list order starting
from 0; the working csf, at any voxel where some mask is positive, is the
overwrite `max 0 (1 - s)` for the last positive mask in list order; and the
CSF channel is `max 0 (1 - WM)`. -/
theorem wmStage_exact (volCSF : ℚ) (wmVals : List ℚ) :
    (wmStage volCSF wmVals).1.wm = wmVals.foldl (fun w s => min 1 (w + s)) 0 ∧
    (wmStage volCSF wmVals).1.csf = max 0 (1 - (wmStage volCSF wmVals).1.wm) ∧
    ∀ s0 : ℚ, (wmVals.filter fun s => decide (0 < s)).getLast? = some s0 →
      (wmStage volCSF wmVals).2 = max 0 (1 - s0) := by
  refine ⟨wmPass_foldl_fst wmVals 0 volCSF, rfl, fun s0 h => ?_⟩
  exact wmPass_snd_lastpos wmVals 0 volCSF s0 h

/-- Witness for C5 at a concrete mask list (last positive mask is `1/4`). -/
theorem wmStage_exact_witness :
    (wmStage 5 [1/2, 0, 1/4]).1.wm = [(1:ℚ)/2, 0, 1/4].foldl (fun w s => min 1 (w + s)) 0 ∧
    (wmStage 5 [1/2, 0, 1/4]).2 = max 0 (1 - 1/4) :=
  ⟨(wmStage_exact 5 [1/2, 0, 1/4]).1,
   (wmStage_exact 5 [1/2, 0, 1/4]).2.2 (1/4) (by norm_num [List.filter, List.getLast?])⟩

/-- Stated from the claim wording for comparison with the code's GM-structure
step: only voxels with `s > 0` are updated, by the sequence GM first, then CSF
from the new GM, then WM from the new GM and CSF. -/
def gmStepSpec (out : PV) (s : ℚ) : PV :=
  if 0 < s then
    let gm2 := min 1 (out.gm + s)
    let csf2 := min out.csf (1 - gm2)
    let wm2 := max (1 - (gm2 + csf2)) 0
    ⟨gm2, wm2, csf2⟩
  else out

/-- C6: the GM-structure pass is the fold, in iteration order, of the
claim's per-structure update: exactly the voxels with `s > 0` change, each by
`GM = min 1 (GM + s)`, then `CSF = min CSF (1 - GM)`, then
`WM = max (1 - (GM + CSF)) 0`, layered structure by structure. -/
theorem gmPass_exact (out : PV) (gmVals : List ℚ) :
    gmPass out gmVals = gmVals.foldl gmStepSpec out ∧
    (∀ t : PV, ∀ s : ℚ, ¬ 0 < s → gmStepSpec t s = t) := by
  have hfun : gmStep = gmStepSpec := by
    funext t s
    simp only [gmStep, gmStepSpec]
  constructor
  · show gmVals.foldl gmStep out = _
    rw [hfun]
  · intro t s hs
    simp [gmStepSpec, hs]

/-- Witness for C6 at a concrete voxel: a positive mask fires the update and
a zero mask leaves the voxel unchanged. -/
theorem gmPass_exact_witness :
    gmPass ⟨0, 0, 1⟩ [1/2] = [(1:ℚ)/2].foldl gmStepSpec ⟨0, 0, 1⟩ ∧
    gmStepSpec ⟨0, 0, 1⟩ 0 = ⟨0, 0, 1⟩ :=
  ⟨(gmPass_exact ⟨0, 0, 1⟩ [1/2]).1,
   (gmPass_exact ⟨0, 0, 1⟩ [1/2]).2 ⟨0, 0, 1⟩ 0 (by norm_num)⟩

/-- C7: classification resolves by exact-match table lookup first; only when
the code is absent from the table does the range-based fallback apply; a code
matching neither tier is reported non-fatally to the caller unless it is in
the ignore set, in which case it is silently unclassified.  In this embedding
`classify` is a function of the code alone, so the result depends only on the
code value. -/
theorem classify_two_tier (code : ℤ) :
    (∀ t : String, SUBCORT_LUT code = some t → classify code = some t) ∧
    (SUBCORT_LUT code = none → classify code = CTX_LUT code) ∧
    (code ∈ IGNORE → classify code = none ∧ reported code = false) ∧
    (reported code = true ↔ classify code = none ∧ code ∉ IGNORE) := by
  refine ⟨?_, ?_, ?_, ?_⟩
  · intro t h
    simp [classify, h]
  · intro h
    simp [classify, h]
  · intro h
    have h2 : code = 6 ∨ code = 45 := by simpa [IGNORE] using h
    rcases h2 with rfl | rfl <;> exact ⟨by decide, by decide⟩
  · simp [reported]

/-- Witness for C7: an exact-match code, a fallback code, and an ignored code. -/
theorem classify_two_tier_witness :
    classify 2 = some "WM" ∧ classify 1005 = CTX_LUT 1005 ∧
    (classify 6 = none ∧ reported 6 = false) :=
  ⟨(classify_two_tier 2).1 "WM" (by decide),
   (classify_two_tier 1005).2.1 (by decide),
   (classify_two_tier 6).2.2.1 (by decide)⟩

/-- One application of the final clip-and-divide pass is a fixed point of a
second application, for a voxel with positive clipped sum. -/
theorem normalizePV_idem {t : PV} (h : 0 < pvSum (clipPV t)) :
    normalizePV (normalizePV t) = normalizePV t := by
  have hg : 0 ≤ (clipPV t).gm := le_max_left 0 _
  have hw : 0 ≤ (clipPV t).wm := le_max_left 0 _
  have hc : 0 ≤ (clipPV t).csf := le_max_left 0 _
  have hng : 0 ≤ (normalizePV t).gm := div_nonneg hg h.le
  have hnw : 0 ≤ (normalizePV t).wm := div_nonneg hw h.le
  have hnc : 0 ≤ (normalizePV t).csf := div_nonneg hc h.le
  have hclip : clipPV (normalizePV t) = normalizePV t := by
    show PV.mk _ _ _ = _
    rw [max_eq_right hng, max_eq_right hnw, max_eq_right hnc]
  have hsum : pvSum (normalizePV t) = 1 := by
    show (clipPV t).gm / pvSum (clipPV t) + (clipPV t).wm / pvSum (clipPV t) +
        (clipPV t).csf / pvSum (clipPV t) = 1
    rw [div_add_div_same, div_add_div_same]
    exact div_self h.ne'
  show (⟨(clipPV (normalizePV t)).gm / pvSum (clipPV (normalizePV t)),
        (clipPV (normalizePV t)).wm / pvSum (clipPV (normalizePV t)),
        (clipPV (normalizePV t)).csf / pvSum (clipPV (normalizePV t))⟩ : PV) =
    normalizePV t
  rw [hclip, hsum, div_one, div_one, div_one]

/-- C8: the step-7 normalization (clip negatives to 0, then divide each
voxel's triple by its clipped sum) is idempotent on every per-voxel triple
array whose voxels have positive clipped sums — the only situation in which
the code reaches the division, since the immediately preceding assertion
forces every clipped voxel sum to be within 1e-6 of 1. -/
theorem normalize_idempotent (l : List PV)
    (h : ∀ t ∈ l, 0 < pvSum (clipPV t)) :
    (l.map normalizePV).map normalizePV = l.map normalizePV := by
  induction l with
  | nil => rfl
  | cons a t ih =>
    simp only [List.map_cons, List.cons.injEq]
    exact ⟨normalizePV_idem (h a (by simp)),
      ih fun s hs => h s (by simp [hs])⟩

/-- Witness for C8 at a concrete one-voxel array. -/
theorem normalize_idempotent_witness :
    (([⟨2, 0, 0⟩] : List PV).map normalizePV).map normalizePV =
      ([⟨2, 0, 0⟩] : List PV).map normalizePV :=
  normalize_idempotent [⟨2, 0, 0⟩] (by
    intro t ht
    simp only [List.mem_singleton] at ht
    subst ht
    norm_num [pvSum, clipPV])

/-- A zero voxel sum falsifies the unit-sum assertion. -/
theorem pvCheck_false_of_sum_zero {t : PV} (h : pvSum t = 0) : pvCheck t = false := by
  simp only [pvCheck, h]
  norm_num

/-- A voxel whose final assertion block fails aborts the per-voxel pipeline. -/
theorem stackVoxel_none_of_clip {v : ℚ} {ctx : PV} {w g : List ℚ}
    (h : pvCheck (clipPV (gmPass (midPV v ctx w) g)) = false) :
    stackVoxel v ctx w g = none := by
  unfold stackVoxel
  simp [h]

/-- C10: if, after the final clipping of negatives, some voxel's triple sums
to exactly 0, the vectorized composition aborts with the unit-sum assertion
failure (`|0 - 1| < 1e-6` is false); in `stack_images` that assertion is
executed before the normalization division, so the division never runs with a
zero denominator on any completed call. -/
theorem stackCore_zero_sum_aborts (csf ctxgm ctxwm ctxnon bs lc rc : Img)
    (gms : List Img) (i : Nat) (hi : i < csf.length)
    (hz : pvSum (clipPV (gmPass
        (midPV (csf.getD i 0) ⟨ctxgm.getD i 0, ctxwm.getD i 0, ctxnon.getD i 0⟩
          [bs.getD i 0, lc.getD i 0, rc.getD i 0])
        (gms.map fun g => g.getD i 0))) = 0) :
    stackCore csf ctxgm ctxwm ctxnon bs lc rc gms = none := by
  unfold stackCore
  exact optMap_none (List.mem_range.mpr hi)
    (stackVoxel_none_of_clip (pvCheck_false_of_sum_zero hz))

/-- Witness for C10: a voxel whose (inconsistent) cortex estimate drives
every channel to 0 after clipping, on which the composition aborts. -/
theorem stackCore_zero_sum_aborts_witness :
    stackCore [0] [-1] [0] [0] [0] [0] [0] [] = none :=
  stackCore_zero_sum_aborts [0] [-1] [0] [0] [0] [0] [0] [] 0 (by norm_num)
    (by
      have hmid : midPV 0 ⟨-1, 0, 0⟩ [0, 0, 0] = ⟨-1, 0, 0⟩ := by
        simp only [midPV, wmStage_zeros]
        norm_num [cortexStep, backfillStep]
      simp [hmid, gmPass, clipPV, pvSum])

/-- Volumetric triple for the generic-WM code 2. -/
theorem volPVvoxel_2 : volPVvoxel 2 = ⟨0, 1, 0⟩ := by
  have hG : ¬ classify 2 = some "GM" := by decide
  have hW : classify 2 = some "WM" := by decide
  simp [volPVvoxel, hG, hW]

/-- Volumetric triple for the generic-GM code 3. -/
theorem volPVvoxel_3 : volPVvoxel 3 = ⟨1, 0, 0⟩ := by
  have hG : classify 3 = some "GM" := by decide
  have hW : ¬ classify 3 = some "WM" := by decide
  simp [volPVvoxel, hG, hW]

/-- Volumetric triple for the CSF-mapped code 0. -/
theorem volPVvoxel_0 : volPVvoxel 0 = ⟨0, 0, 1⟩ := by
  have hG : ¬ classify 0 = some "GM" := by decide
  have hW : ¬ classify 0 = some "WM" := by decide
  simp [volPVvoxel, hG, hW]
  all_goals norm_num

/-- Volumetric triple for the left-accumbens code 26. -/
theorem volPVvoxel_26 : volPVvoxel 26 = ⟨0, 0, 1⟩ := by
  have hG : ¬ classify 26 = some "GM" := by decide
  have hW : ¬ classify 26 = some "WM" := by decide
  simp [volPVvoxel, hG, hW]
  all_goals norm_num

/-- The scenario dictionary with its derived entries evaluated. -/
theorem c2Images_eval : c2Images =
    [("L_Accu", [0, 0, 0, 1]),
     ("BrStem", [0, 0, 0, 0]),
     ("L_CerWM", [0, 0, 0, 0]),
     ("R_CerWM", [0, 0, 0, 0]),
     ("cortex_GM", [0, 0, 0, 0]),
     ("cortex_WM", [0, 0, 0, 0]),
     ("cortex_nonbrain", [1, 1, 1, 1]),
     ("vol_GM", [0, 1, 0, 0]),
     ("vol_WM", [1, 0, 0, 0]),
     ("vol_CSF", [0, 0, 1, 1])] := by
  have hs2 : structMaskVoxel "L_Accu" 2 = 0 := by decide
  have hs3 : structMaskVoxel "L_Accu" 3 = 0 := by decide
  have hs0 : structMaskVoxel "L_Accu" 0 = 0 := by decide
  have hs26 : structMaskVoxel "L_Accu" 26 = 1 := by decide
  simp [c2Images, c2Labels, hs2, hs3, hs0, hs26,
    volPVvoxel_2, volPVvoxel_3, volPVvoxel_0, volPVvoxel_26]

/-- The composition of the accumbens voxel: the GM-structure pass converts
the all-CSF baseline into pure GM. -/
theorem stackVoxel_accu : stackVoxel 1 ⟨0, 0, 1⟩ [0, 0, 0] [1] = some ⟨1, 0, 0⟩ := by
  have hmid := midPV_baseline 1 le_rfl
  have hgm : gmPass ⟨0, 0, 1⟩ [1] = ⟨1, 0, 0⟩ := by
    norm_num [gmPass, gmStep, List.foldl]
  unfold stackVoxel
  rw [hmid, hgm]
  norm_num [pvCheck, pvSum, clipPV, normalizePV]

/-- Evaluation of `stack_images` on the end-to-end scenario dictionary. -/
theorem stack_images_c2 : stack_images c2Images =
    some ([⟨0, 0, 1⟩, ⟨0, 0, 1⟩, ⟨0, 0, 1⟩, ⟨1, 0, 0⟩], [("L_Accu", [0, 0, 0, 1])]) := by
  have h0 : stackVoxel 0 ⟨0, 0, 1⟩ [0, 0, 0] [0] = some ⟨0, 0, 1⟩ :=
    stackVoxel_base 0 (by norm_num) [0] (by simp)
  have h1 : stackVoxel 1 ⟨0, 0, 1⟩ [0, 0, 0] [0] = some ⟨0, 0, 1⟩ :=
    stackVoxel_base 1 le_rfl [0] (by simp)
  have hcore : stackCore [0, 0, 1, 1] [0, 0, 0, 0] [0, 0, 0, 0] [1, 1, 1, 1]
      [0, 0, 0, 0] [0, 0, 0, 0] [0, 0, 0, 0] [[0, 0, 0, 1]] =
      some [⟨0, 0, 1⟩, ⟨0, 0, 1⟩, ⟨0, 0, 1⟩, ⟨1, 0, 0⟩] := by
    simp [stackCore, optMap, List.range_succ, h0, h1, stackVoxel_accu]
  rw [c2Images_eval]
  simp [stack_images, dictPop, hcore]

/-- C2 counterexample: on the end-to-end scenario the composed output is NOT
the claimed `[(0,1,0), (0,0,1), (0,0,1), (1,0,0)]` — voxel 1 (generic-WM code
2) differs. -/
theorem c2_scenario_counterexample :
    (stack_images c2Images).map Prod.fst ≠
      some [⟨0, 1, 0⟩, ⟨0, 0, 1⟩, ⟨0, 0, 1⟩, ⟨1, 0, 0⟩] := by
  rw [stack_images_c2]
  intro h
  simp only [Option.map_some', Option.some.injEq, List.cons.injEq, PV.mk.injEq] at h
  have := h.1.2.1
  norm_num at this

/-- C2 (amended): on the end-to-end scenario the composed output is
`[(0,0,1), (0,0,1), (0,0,1), (1,0,0)]`: voxel 1 yields `(0,0,1)` because
`stack_images` keeps only `vol_CSF` from the volumetric estimate and discards
`vol_WM`/`vol_GM`, so the generic-WM content of code 2 (whose `vol_CSF` is 0)
leaves the voxel at the steps 1-3 all-CSF baseline; voxels 2-4 are as
claimed. -/
theorem c2_scenario_amended :
    (stack_images c2Images).map Prod.fst =
      some [⟨0, 0, 1⟩, ⟨0, 0, 1⟩, ⟨0, 0, 1⟩, ⟨1, 0, 0⟩] := by
  rw [stack_images_c2]
  rfl

/-- The nine dictionary keys `stack_images` pops out of the caller's
dictionary before compositing. -/
def poppedKeys : List String :=
  ["vol_CSF", "vol_WM", "vol_GM", "cortex_GM", "cortex_WM", "cortex_nonbrain",
   "BrStem", "L_CerWM", "R_CerWM"]

/-- Popping a key from a dictionary with distinct keys removes exactly that
entry, preserving order and key distinctness. -/
theorem dictPop_rest : ∀ {d : ImgDict} {k : String} {v : Img} {d2 : ImgDict},
    (d.map Prod.fst).Nodup → dictPop d k = some (v, d2) →
    d2 = d.filter (fun kv => decide (kv.1 ≠ k)) ∧ (d2.map Prod.fst).Nodup := by
  intro d
  induction d with
  | nil => intro k v d2 _ h; simp [dictPop] at h
  | cons a rest ih =>
    obtain ⟨k2, v2⟩ := a
    intro k v d2 hnd h
    have hnd2 : (rest.map Prod.fst).Nodup := (List.nodup_cons.mp hnd).2
    have hk2 : k2 ∉ rest.map Prod.fst := (List.nodup_cons.mp hnd).1
    simp only [dictPop] at h
    by_cases hk : k2 = k
    · rw [if_pos hk] at h
      simp only [Option.some.injEq, Prod.mk.injEq] at h
      obtain ⟨-, hd⟩ := h
      subst hd
      subst hk
      have hfix : rest.filter (fun kv => decide (kv.1 ≠ k2)) = rest := by
        refine List.filter_eq_self.mpr fun kv hkv => ?_
        simp only [decide_eq_true_eq]
        intro heq
        exact hk2 (heq ▸ List.mem_map_of_mem Prod.fst hkv)
      constructor
      · rw [List.filter_cons_of_neg (by simp)]
        exact hfix.symm
      · exact hnd2
    · rw [if_neg hk] at h
      cases hrec : dictPop rest k with
      | none => rw [hrec] at h; exact absurd h (by simp)
      | some p =>
        obtain ⟨v3, rest3⟩ := p
        rw [hrec] at h
        simp only [Option.some.injEq, Prod.mk.injEq] at h
        obtain ⟨-, hd⟩ := h
        subst hd
        obtain ⟨e3, n3⟩ := ih hnd2 hrec
        constructor
        · rw [List.filter_cons_of_pos (by simp [Ne.symm, hk]), e3]
        · simp only [List.map_cons]
          refine List.nodup_cons.mpr ⟨fun hmem => hk2 ?_, n3⟩
          rw [e3] at hmem
          obtain ⟨kv, hkv3, hfst⟩ := List.mem_map.mp hmem
          have hkvr : kv ∈ rest := (List.mem_filter.mp hkv3).1
          exact hfst ▸ List.mem_map_of_mem Prod.fst hkvr

/-- A ten-entry dictionary: the nine popped names plus one GM structure. -/
def c9Images : ImgDict := ("L_Accu", [0]) :: c1Images

/-- Evaluation of `stack_images` on the ten-entry dictionary. -/
theorem stack_images_c9 :
    stack_images c9Images = some ([⟨0, 0, 1⟩], [("L_Accu", [0])]) := by
  have h0 : stackVoxel 1 ⟨0, 0, 1⟩ [0, 0, 0] [0] = some ⟨0, 0, 1⟩ :=
    stackVoxel_base 1 le_rfl [0] (by simp)
  have hcore : stackCore [1] [0] [0] [1] [0] [0] [0] [[0]] = some [⟨0, 0, 1⟩] := by
    simp [stackCore, optMap, List.range_succ, h0]
  simp [stack_images, c9Images, c1Images, dictPop, hcore]

/-- C9 counterexample: `stack_images` does mutate caller-owned state — after
this concrete call the dictionary no longer holds the entries it held before
(the nine popped entries are gone). -/
theorem stack_images_mutates :
    stack_images c9Images = some ([⟨0, 0, 1⟩], [("L_Accu", [0])]) ∧
    ([("L_Accu", ([0] : Img))] : ImgDict) ≠ c9Images := by
  refine ⟨stack_images_c9, fun h => ?_⟩
  have hlen := congrArg List.length h
  simp [c9Images, c1Images] at hlen

/-- C9 (amended): the mask arrays themselves are consumed by value (the code
reads flattened copies and never writes an input array), but the name-to-mask
dictionary is mutated in place: on return it holds exactly the entries whose
keys are not among the nine popped names, in their original order. -/
theorem stack_images_dict_residue (images : ImgDict) (res : List PV) (rest : ImgDict)
    (hnd : (images.map Prod.fst).Nodup)
    (h : stack_images images = some (res, rest)) :
    rest = images.filter fun kv => decide (kv.1 ∉ poppedKeys) := by
  simp only [stack_images, Option.bind_eq_some, Option.map_eq_some'] at h
  obtain ⟨p1, h1, p2, h2, p3, h3, p4, h4, p5, h5, p6, h6, p7, h7, p8, h8, p9, h9,
    res2, hcore, heq⟩ := h
  injection heq with hres hrest
  obtain ⟨e1, n1⟩ := dictPop_rest hnd h1
  obtain ⟨e2, n2⟩ := dictPop_rest n1 h2
  obtain ⟨e3, n3⟩ := dictPop_rest n2 h3
  obtain ⟨e4, n4⟩ := dictPop_rest n3 h4
  obtain ⟨e5, n5⟩ := dictPop_rest n4 h5
  obtain ⟨e6, n6⟩ := dictPop_rest n5 h6
  obtain ⟨e7, n7⟩ := dictPop_rest n6 h7
  obtain ⟨e8, n8⟩ := dictPop_rest n7 h8
  obtain ⟨e9, _⟩ := dictPop_rest n8 h9
  rw [← hrest, e9, e8, e7, e6, e5, e4, e3, e2, e1]
  simp only [List.filter_filter]
  refine List.filter_congr fun kv _ => ?_
  simp only [← Bool.decide_and]
  refine decide_eq_decide.mpr ?_
  simp only [poppedKeys, List.mem_cons, List.not_mem_nil, not_or, or_false]
  tauto

/-- Witness for C9's amended statement at the concrete ten-entry call. -/
theorem stack_images_dict_residue_witness :
    ([("L_Accu", ([0] : Img))] : ImgDict) =
      c9Images.filter fun kv => decide (kv.1 ∉ poppedKeys) :=
  stack_images_dict_residue c9Images [⟨0, 0, 1⟩] [("L_Accu", [0])]
    (by decide) stack_images_c9

end HCPASL
